import Mathlib

/-
A shallow embedding of `copy_db_poc.py`, a script that copies every table of
a source relational database into a destination database: it reflects the
source schema, rewrites dialect-specific column types into generic ones,
materializes each table at the destination under a name carrying the fixed
prefix "dbin_", with no constraints and no indexes, and streams every
row across.  Machinery below models the script's pure data manipulation and
its effects on an explicit destination-database state.
-/

namespace CopyDbPoc

/-- Column values as they travel from a source row to a destination insert. -/
inductive Value where
  | null : Value
  | int (i : Int) : Value
  | str (s : String) : Value
  deriving DecidableEq

/-- SQLAlchemy column types that appear in the pipeline: dialect-neutral
generic types (`String`, `Text`, `Integer`) and PostgreSQL dialect types
(`UUID`, `VARCHAR`, `TEXT`, `INTEGER`, `TSVECTOR`).  Character types carry
the optional `length` parameter (`none` models Python `None`). -/
inductive SQLType where
  | string (length : Option Nat) : SQLType
  | text (length : Option Nat) : SQLType
  | integer : SQLType
  | pgUUID : SQLType
  | pgVarchar (length : Option Nat) : SQLType
  | pgText (length : Option Nat) : SQLType
  | pgInteger : SQLType
  | pgTSVECTOR : SQLType
  deriving DecidableEq

/-- `isinstance(type, sqlalchemy.dialects.postgresql.UUID)`. -/
def isPgUUID : SQLType → Bool
  | SQLType.pgUUID => true
  | _ => false

/-- `isinstance(new, String)`: in SQLAlchemy, `Text` subclasses `String`,
so both generic character types are instances of `String`. -/
def isStringClass : SQLType → Bool
  | SQLType.string _ => true
  | SQLType.text _ => true
  | _ => false

/-- The `length` attribute of a character type. -/
def typeLength : SQLType → Option Nat
  | SQLType.string l => l
  | SQLType.text l => l
  | _ => none

/-- Python truthiness test `not new.length`: `None` and `0` are falsy. -/
def lengthFalsy : Option Nat → Bool
  | none => true
  | some n => n == 0

/-- Assignment `new.length = 512` (a no-op on types without `length`). -/
def set_length : SQLType → Nat → SQLType
  | SQLType.string _, n => SQLType.string (some n)
  | SQLType.text _, n => SQLType.text (some n)
  | t, _ => t

/-- Whether a type belongs to a dialect module (here `postgresql`) rather
than to the generic `sqlalchemy` type hierarchy. -/
def isDialectSpecific : SQLType → Bool
  | SQLType.pgUUID => true
  | SQLType.pgVarchar _ => true
  | SQLType.pgText _ => true
  | SQLType.pgInteger => true
  | SQLType.pgTSVECTOR => true
  | _ => false

/-- `type.as_generic()`: the dialect-neutral version of the same logical
type.  `Except.error ()` models the `NotImplementedError` SQLAlchemy raises
when a type has no generic counterpart (e.g. `UUID`, `TSVECTOR`). -/
def as_generic : SQLType → Except Unit SQLType
  | SQLType.pgUUID => Except.error ()
  | SQLType.pgTSVECTOR => Except.error ()
  | SQLType.pgVarchar l => Except.ok (SQLType.string l)
  | SQLType.pgText l => Except.ok (SQLType.text l)
  | SQLType.pgInteger => Except.ok SQLType.integer
  | SQLType.string l => Except.ok (SQLType.string l)
  | SQLType.text l => Except.ok (SQLType.text l)
  | SQLType.integer => Except.ok SQLType.integer

/-- `get_generic_type` from `copy_db_poc.py`: UUID becomes `String(36)`;
otherwise `as_generic()` is tried, a generic character type without a
length gets length 512, and on `NotImplementedError` the original type is
returned unchanged (the `except` branch). -/
def get_generic_type (t : SQLType) : SQLType :=
  if isPgUUID t then SQLType.string (some 36)
  else
    match as_generic t with
    | Except.ok new =>
        if isStringClass new && lengthFalsy (typeLength new) then set_length new 512
        else new
    | Except.error _ => t

/-- Generic types returned by `as_generic` are never dialect-specific. -/
theorem as_generic_not_dialect (t g : SQLType) (h : as_generic t = Except.ok g) :
    isDialectSpecific g = false := by
  cases t <;> simp [as_generic] at h <;> simp [← h, isDialectSpecific]

/-- `set_length` does not change the dialect status of a type. -/
theorem set_length_not_dialect (g : SQLType) (n : Nat) :
    isDialectSpecific (set_length g n) = isDialectSpecific g := by
  cases g <;> simp [set_length, isDialectSpecific]

/-- Claim C2: for every source column type, `get_generic_type` returns
`String(36)` when the input is the PostgreSQL `UUID` type; otherwise, when
a dialect-neutral generic version of the type exists, it returns that
generic version, with length set to 512 exactly when the generic version is
a character type with unspecified or zero length. -/
theorem get_generic_type_spec (t : SQLType) :
    (isPgUUID t = true → get_generic_type t = SQLType.string (some 36)) ∧
    (isPgUUID t = false → ∀ g, as_generic t = Except.ok g →
      ((isStringClass g = true → lengthFalsy (typeLength g) = true →
          get_generic_type t = set_length g 512 ∧
          typeLength (set_length g 512) = some 512 ∧
          isStringClass (set_length g 512) = true) ∧
       (lengthFalsy (typeLength g) = false → get_generic_type t = g) ∧
       (isStringClass g = false → get_generic_type t = g))) := by
  constructor
  · intro h
    cases t <;> simp [isPgUUID] at h
    simp [get_generic_type, isPgUUID]
  · intro h g hg
    refine ⟨?_, ?_, ?_⟩
    · intro hs hl
      refine ⟨?_, ?_, ?_⟩
      · simp [get_generic_type, h, hg, hs, hl]
      · cases g <;> simp [isStringClass] at hs <;> simp [set_length, typeLength]
      · cases g <;> simp [isStringClass] at hs <;> simp [set_length, isStringClass]
    · intro hl
      simp [get_generic_type, h, hg, hl]
    · intro hs
      simp [get_generic_type, h, hg, hs]

/-- Witness for C2 at concrete inputs: the PostgreSQL `UUID` type maps to
`String(36)`, and a length-less dialect `VARCHAR` maps to `String(512)`. -/
theorem get_generic_type_spec_witness :
    get_generic_type SQLType.pgUUID = SQLType.string (some 36) ∧
    get_generic_type (SQLType.pgVarchar none) = SQLType.string (some 512) := by
  constructor
  · exact (get_generic_type_spec SQLType.pgUUID).1 rfl
  · exact (((get_generic_type_spec (SQLType.pgVarchar none)).2 rfl
      (SQLType.string none) rfl).1 rfl rfl).1

/-- Claim C6: `get_generic_type` is a total function (it never raises); when
the conversion of a non-UUID type raises `NotImplementedError`, the error is
caught and the original unconverted source type is returned unchanged. -/
theorem get_generic_type_fallback (t : SQLType) (h1 : isPgUUID t = false)
    (h2 : as_generic t = Except.error ()) : get_generic_type t = t := by
  simp [get_generic_type, h1, h2]

/-- Witness for C6: `TSVECTOR` has no generic counterpart and is returned
unchanged. -/
theorem get_generic_type_fallback_witness :
    get_generic_type SQLType.pgTSVECTOR = SQLType.pgTSVECTOR :=
  get_generic_type_fallback SQLType.pgTSVECTOR rfl rfl

/-- A reflected column: name, type, and the reflected server default
expression (e.g. `nextval(...)`), if any. -/
structure Column where
  name : String
  type : SQLType
  default : Option String
  deriving DecidableEq

/-- A reflected table: name, ordered columns, and (as reflected from the
source) constraint and index descriptors, kept as plain labels. -/
structure Table where
  name : String
  columns : List Column
  constraints : List String
  indexes : List String
  deriving DecidableEq

/-- The `column_reflect` listener `genericize_datatypes`: the reflected
default is deleted and the type is replaced by `get_generic_type`. -/
def reflect_column (c : Column) : Column :=
  { name := c.name, type := get_generic_type c.type, default := none }

/-- Full reflection of one table: every column goes through
`genericize_datatypes`. -/
def reflect_table (t : Table) : Table :=
  { t with columns := t.columns.map reflect_column }

/-- `TABLE_PREFIX` from `copy_db_poc.py`. -/
def TABLE_PREFIX : String := "dbin_"

/-- The destination-side table definition built at the top of `copy_table`:
`out_table = copy.copy(table)` with `out_table.name = f"{TABLE_PREFIX}..."`,
`out_table.constraints = set([])` and `out_table.indexes = set([])`. -/
def derive_out_table (t : Table) : Table :=
  { name := TABLE_PREFIX ++ t.name
    columns := t.columns
    constraints := []
    indexes := [] }

/-- A row as delivered by `select(table)`: column name / value pairs. -/
abbrev Row := List (String × Value)

/-- One table stored at the destination: its created definition and its
current rows, in insertion order. -/
structure DTable where
  table : Table
  rows : List Row
  deriving DecidableEq

/-- The destination database: a map from table name to stored table. -/
abbrev DestDB := String → Option DTable

/-- `out_table.drop(out_engine, checkfirst=True)`: remove the table if it
exists; never fails. -/
def drop_table (d : DestDB) (n : String) : DestDB :=
  fun m => if m = n then none else d m

/-- `out_table.create(out_engine)`: store an empty table under the derived
definition. -/
def create_table (d : DestDB) (tbl : Table) : DestDB :=
  fun m => if m = tbl.name then some { table := tbl, rows := [] } else d m

/-- `conn_out.execute(ins)` for a single-row insert: append the row to the
named table. -/
def exec_insert (d : DestDB) (n : String) (r : Row) : DestDB :=
  fun m =>
    if m = n then
      match d n with
      | some dt => some { table := dt.table, rows := dt.rows ++ [r] }
      | none => none
    else d m

/-- The value a source row carries for a column name (`r[c]`; a column the
row does not mention is NULL at the destination). -/
def rowValue (r : Row) (c : String) : Value :=
  (List.lookup c r).getD Value.null

/-- The names of a table's columns, in declaration order. -/
def colNames (t : Table) : List String :=
  t.columns.map Column.name

/-- The destination row produced by `out_table.insert().values(**r)`: each
destination column is bound, by name, to the source row's value for that
name — positional order plays no role. -/
def insert_row_values (cols : List String) (r : Row) : Row :=
  cols.map (fun c => (c, rowValue r c))

/-- One event of the run's observable trace. -/
inductive Event where
  | reflect : Event
  | fixturesInstalled : Event
  | dropT (name : String) : Event
  | createT (name : String) : Event
  | insertR (name : String) : Event
  deriving DecidableEq

/-- The trace `copy_table` emits for one table: drop, create, then one
insert per source row, all against the derived destination table. -/
def copy_table_events (t : Table) (srcRows : List Row) : List Event :=
  Event.dropT ( TABLE_PREFIX ++ t.name) :: Event.createT ( TABLE_PREFIX ++ t.name) ::
    srcRows.map (fun _ => Event.insertR ( TABLE_PREFIX ++ t.name))

/-- `copy_table` from `copy_db_poc.py`, acting on the destination state:
derive the out-table, drop it (checkfirst), create it, then insert every
source row one by one.  The function body has no `return` statement, so its
Python return value is `None`, embedded as `(none : Option Nat)`. -/
def copy_table (t : Table) (srcRows : List Row) (d : DestDB) :
    DestDB × List Event × Option Nat :=
  let out := derive_out_table t
  let d1 := drop_table d out.name
  let d2 := create_table d1 out
  let d3 := srcRows.foldl
    (fun dd r => exec_insert dd out.name (insert_row_values (colNames out) r)) d2
  (d3, copy_table_events t srcRows, none)

/-- Claim C3: the destination table derived from a reflected source table
is named `"dbin_" ++ sourceName`, has exactly the source's columns (same
names, same order, each with its genericized type), and carries no
constraints and no indexes, whatever the source declared. -/
theorem derive_out_table_spec (src : Table) :
    (derive_out_table (reflect_table src)).name = "dbin_" ++ src.name ∧
    (derive_out_table (reflect_table src)).columns.map Column.name
      = src.columns.map Column.name ∧
    (derive_out_table (reflect_table src)).columns.map Column.type
      = src.columns.map (fun c => get_generic_type c.type) ∧
    (derive_out_table (reflect_table src)).constraints = [] ∧
    (derive_out_table (reflect_table src)).indexes = [] := by
  refine ⟨rfl, ?_, ?_, rfl, rfl⟩
  · simp [derive_out_table, reflect_table, reflect_column]
  · simp [derive_out_table, reflect_table, reflect_column]

/-- A concrete source column whose type has no generic counterpart. -/
def tsvCol : Column :=
  { name := "document", type := SQLType.pgTSVECTOR, default := none }

/-- A concrete source table holding `tsvCol`, with a reflected primary-key
constraint and an index. -/
def tsvTable : Table :=
  { name := "docs", columns := [tsvCol], constraints := ["pk_docs"],
    indexes := ["ix_docs"] }

/-- The empty destination database. -/
def destEmpty : DestDB := fun _ => none

/-- Counterexample to claim C7: reflecting a `TSVECTOR` column leaves its
raw dialect-specific source type in place (the genericizer's fallback), and
`copy_table` then creates the destination table carrying exactly that raw
type — so a column can be copied with its dialect-specific source type. -/
theorem reflect_column_keeps_raw_type :
    (reflect_column tsvCol).type = tsvCol.type ∧
    isDialectSpecific ((reflect_column tsvCol).type) = true ∧
    ((copy_table (reflect_table tsvTable) [] destEmpty).1 ("dbin_" ++ "docs"))
      = some { table := derive_out_table (reflect_table tsvTable), rows := [] } ∧
    (derive_out_table (reflect_table tsvTable)).columns.map Column.type
      = [SQLType.pgTSVECTOR] := by
  refine ⟨rfl, rfl, ?_, rfl⟩
  decide

/-- Claim C7 (amended): after reflection every column's type is exactly the
genericizer's output on its raw source type and its default is discarded;
whenever the source type is the dialect UUID type or admits a generic
version, the reflected type is not dialect-specific — only the fallback
case (no generic counterpart) keeps the raw dialect-specific type. -/
theorem reflect_column_spec (c : Column) :
    (reflect_column c).type = get_generic_type c.type ∧
    (reflect_column c).default = none ∧
    (isPgUUID c.type = true → isDialectSpecific ((reflect_column c).type) = false) ∧
    (∀ g, as_generic c.type = Except.ok g →
      isDialectSpecific ((reflect_column c).type) = false) := by
  refine ⟨rfl, rfl, ?_, ?_⟩
  · intro h
    cases hc : c.type <;> simp [hc, isPgUUID] at h
    simp [reflect_column, hc, get_generic_type, isPgUUID, isDialectSpecific]
  · intro g hg
    by_cases hu : isPgUUID c.type = true
    · cases hc : c.type <;> simp [hc, isPgUUID] at hu
      simp [reflect_column, hc, get_generic_type, isPgUUID, isDialectSpecific]
    · have hu' : isPgUUID c.type = false := by
        cases hb : isPgUUID c.type
        · rfl
        · exact absurd hb hu
      have : get_generic_type c.type =
          (if isStringClass g && lengthFalsy (typeLength g) then set_length g 512
           else g) := by
        simp [get_generic_type, hu', hg]
      rw [reflect_column]
      simp only [this]
      split
      · rw [set_length_not_dialect]
        exact as_generic_not_dialect c.type g hg
      · exact as_generic_not_dialect c.type g hg

/-- Witness for the amended C7: a reflected UUID column does not carry a
dialect-specific type. -/
theorem reflect_column_spec_witness :
    isDialectSpecific ((reflect_column
      { name := "id", type := SQLType.pgUUID, default := some "uuid_generate_v4()" }).type)
      = false :=
  (reflect_column_spec
    { name := "id", type := SQLType.pgUUID, default := some "uuid_generate_v4()" }).2.2.1 rfl

/-- Looking a name up in a row built by binding each column name to a value
finds that name's value, wherever the name sits in the column list. -/
theorem lookup_map_self (cols : List String) (g : String → Value) (c : String)
    (h : c ∈ cols) :
    List.lookup c (cols.map (fun x => (x, g x))) = some (g c) := by
  induction cols with
  | nil => cases h
  | cons x xs ih =>
      by_cases hx : c = x
      · subst hx
        simp [List.lookup]
      · have hmem : c ∈ xs := by
          cases h with
          | head => exact absurd rfl hx
          | tail _ hm => exact hm
        have hbeq : (c == x) = false := beq_eq_false_iff_ne.mpr hx
        simp [List.lookup, hbeq, ih hmem]

/-- Folding single-row inserts over a table that currently holds `acc`
appends exactly the image of every source row, in order, and leaves every
other table untouched. -/
theorem foldl_exec_insert (n : String) (f : Row → Row) (rows : List Row) :
    ∀ (d : DestDB) (tbl : Table) (acc : List Row),
      d n = some { table := tbl, rows := acc } →
      rows.foldl (fun dd r => exec_insert dd n (f r)) d
        = fun m => if m = n then some { table := tbl, rows := acc ++ rows.map f }
                   else d m := by
  induction rows with
  | nil =>
      intro d tbl acc h
      funext m
      by_cases hm : m = n
      · subst hm
        simp [h]
      · simp [hm]
  | cons r rs ih =>
      intro d tbl acc h
      have h1 : (exec_insert d n (f r)) n
          = some { table := tbl, rows := acc ++ [f r] } := by
        simp [exec_insert, h]
      rw [List.foldl_cons, ih (exec_insert d n (f r)) tbl (acc ++ [f r]) h1]
      funext m
      by_cases hm : m = n
      · subst hm
        simp
      · simp [hm, exec_insert]

/-- Full characterization of `copy_table`'s effect on the destination: the
derived table holds exactly the by-name images of the source rows; every
other table keeps its previous content. -/
theorem copy_table_fst (t : Table) (srcRows : List Row) (d : DestDB) :
    (copy_table t srcRows d).1 = fun m =>
      if m = TABLE_PREFIX ++ t.name then
        some { table := derive_out_table t,
               rows := srcRows.map (insert_row_values (colNames t)) }
      else d m := by
  have h2 : (create_table (drop_table d (derive_out_table t).name)
        (derive_out_table t)) (derive_out_table t).name
      = some { table := derive_out_table t, rows := [] } := by
    simp [create_table]
  show (srcRows.foldl
      (fun dd r => exec_insert dd (derive_out_table t).name
        (insert_row_values (colNames (derive_out_table t)) r))
      (create_table (drop_table d (derive_out_table t).name) (derive_out_table t))) = _
  rw [foldl_exec_insert (derive_out_table t).name
      (insert_row_values (colNames (derive_out_table t))) srcRows
      (create_table (drop_table d (derive_out_table t).name) (derive_out_table t))
      (derive_out_table t) [] h2]
  funext m
  have hcols : colNames (derive_out_table t) = colNames t := rfl
  have hname : (derive_out_table t).name = TABLE_PREFIX ++ t.name := rfl
  by_cases hm : m = TABLE_PREFIX ++ t.name
  · subst hm
    simp [hname, hcols]
  · rw [hname]
    simp [hm, create_table, drop_table, hname]

/-- Claim C1: for one table, the copy inserts each source row exactly once
— after the copy, the destination table holds precisely the ordered list of
images of the source rows, none skipped, none duplicated — other
destination tables are untouched, and each inserted row binds every
destination column, by column name and not by position, to the source
row's value for that name. -/
theorem copy_table_rows_spec (t : Table) (srcRows : List Row) (d : DestDB) :
    (copy_table t srcRows d).1 ( TABLE_PREFIX ++ t.name)
      = some { table := derive_out_table t,
               rows := srcRows.map (insert_row_values (colNames t)) } ∧
    (srcRows.map (insert_row_values (colNames t))).length = srcRows.length ∧
    (∀ m, m ≠ TABLE_PREFIX ++ t.name → (copy_table t srcRows d).1 m = d m) ∧
    (∀ r, r ∈ srcRows → ∀ c, c ∈ colNames t →
      rowValue (insert_row_values (colNames t) r) c = rowValue r c) := by
  refine ⟨?_, by simp, ?_, ?_⟩
  · rw [copy_table_fst]
    simp
  · intro m hm
    rw [copy_table_fst]
    simp [hm]
  · intro r _ c hc
    rw [insert_row_values, rowValue, lookup_map_self (colNames t) (rowValue r) c hc]
    rfl

/-- The `users` table of the fixtures, as it looks after reflection. -/
def usersTable : Table :=
  { name := "users"
    columns := [
      { name := "id", type := SQLType.string (some 36), default := none },
      { name := "num", type := SQLType.integer, default := none },
      { name := "full_name", type := SQLType.string (some 512), default := none }]
    constraints := []
    indexes := [] }

/-- The fixtures row, with the `id` rendered as its 36-character form. -/
def sampleRow : Row :=
  [("id", Value.str "00000000-0000-0000-0000-000000000000"),
   ("num", Value.int 2),
   ("full_name", Value.str "Louis de Funes")]

/-- Witness for C1: copying the one-row `users` fixture preserves the
value of column `num` under the by-name mapping. -/
theorem copy_table_rows_spec_witness :
    rowValue (insert_row_values (colNames usersTable) sampleRow) "num"
      = rowValue sampleRow "num" :=
  (copy_table_rows_spec usersTable [sampleRow] destEmpty).2.2.2 sampleRow
    (by simp) "num" (by decide)

/-- The number of rows a destination table currently holds (0 when the
table does not exist). -/
def rowsAtDest (d : DestDB) (n : String) : Nat :=
  match d n with
  | some dt => dt.rows.length
  | none => 0

/-- Counterexample to claim C8: copying the one-row `users` fixture puts
one row at the destination, yet `copy_table` returns `None` — not the
number of rows copied. -/
theorem copy_table_no_count_cex :
    (copy_table usersTable [sampleRow] destEmpty).2.2 ≠ some 1 ∧
    rowsAtDest ((copy_table usersTable [sampleRow] destEmpty).1)
      ("dbin_" ++ "users") = 1 := by
  constructor
  · decide
  · decide

/-- Claim C8 (amended): `copy_table` always returns `None` rather than a
row count; the number of rows present at the derived destination table
after the copy equals the source row count. -/
theorem copy_table_return_spec (t : Table) (srcRows : List Row) (d : DestDB) :
    (copy_table t srcRows d).2.2 = none ∧
    rowsAtDest ((copy_table t srcRows d).1) ( TABLE_PREFIX ++ t.name)
      = srcRows.length := by
  constructor
  · rfl
  · rw [rowsAtDest, copy_table_fst]
    simp

/-- The source database as reflection sees it: `metadata.sorted_tables`
(the foreign-key topological order — parents before children — produced by
full-schema reflection) plus the rows `select(table)` streams for each
table name. -/
structure SrcDB where
  sortedTables : List Table
  rowsOf : String → List Row

/-- The body of the `for t in reversed(metadata.sorted_tables)` loop:
run `copy_table` on the current destination state and extend the trace. -/
def copy_step (db : SrcDB) (p : DestDB × List Event) (t : Table) :
    DestDB × List Event :=
  let r := copy_table t (db.rowsOf t.name) p.1
  (r.1, p.2 ++ r.2.1)

/-- `copy_db` after engine creation: reflect once (the `column_reflect`
listener genericizes every column of every table), then process
`reversed(metadata.sorted_tables)` strictly sequentially, each table fully
materialized and copied before the next one starts. -/
def copy_db (db : SrcDB) (d : DestDB) : DestDB × List Event :=
  ((db.sortedTables.map reflect_table).reverse).foldl (copy_step db)
    (d, [Event.reflect])

/-- The trace of the per-table loop is the incoming trace followed by the
per-table event blocks, one contiguous block per table, in list order. -/
theorem foldl_copy_step_snd (db : SrcDB) (ts : List Table) :
    ∀ (d : DestDB) (evs : List Event),
      (ts.foldl (copy_step db) (d, evs)).2
        = evs ++ (ts.map (fun t => copy_table_events t (db.rowsOf t.name))).flatten := by
  induction ts with
  | nil =>
      intro d evs
      simp
  | cons t ts ih =>
      intro d evs
      rw [List.foldl_cons]
      show (ts.foldl (copy_step db)
        ((copy_table t (db.rowsOf t.name) d).1,
         evs ++ copy_table_events t (db.rowsOf t.name))).2 = _
      rw [ih]
      simp

/-- The pending destination update of one table: its derived name and the
content the run will leave there. -/
def table_write (db : SrcDB) (t : Table) : String × DTable :=
  ( TABLE_PREFIX ++ t.name,
    { table := derive_out_table t,
      rows := (db.rowsOf t.name).map (insert_row_values (colNames t)) })

/-- Apply a list of keyed writes to the destination, later writes last. -/
def applyW (ws : List (String × DTable)) (d : DestDB) : DestDB :=
  ws.foldl (fun dd w => fun m => if m = w.1 then some w.2 else dd m) d

/-- The destination state of the per-table loop is exactly the writes of
the processed tables applied in order. -/
theorem foldl_copy_step_fst (db : SrcDB) (ts : List Table) :
    ∀ (d : DestDB) (evs : List Event),
      (ts.foldl (copy_step db) (d, evs)).1 = applyW (ts.map (table_write db)) d := by
  induction ts with
  | nil =>
      intro d evs
      rfl
  | cons t ts ih =>
      intro d evs
      rw [List.foldl_cons]
      show (ts.foldl (copy_step db)
        ((copy_table t (db.rowsOf t.name) d).1,
         evs ++ copy_table_events t (db.rowsOf t.name))).1 = _
      rw [ih, copy_table_fst]
      rfl

/-- The value the last write for a name leaves behind, if any. -/
def lastVal : List (String × DTable) → String → Option DTable
  | [], _ => none
  | w :: ws, m =>
      match lastVal ws m with
      | some v => some v
      | none => if m = w.1 then some w.2 else none

/-- Applied writes read back as the last write for the name, falling back
to the previous destination content. -/
theorem applyW_spec (ws : List (String × DTable)) :
    ∀ (d : DestDB) (m : String),
      applyW ws d m
        = match lastVal ws m with
          | some v => some v
          | none => d m := by
  induction ws with
  | nil =>
      intro d m
      rfl
  | cons w ws ih =>
      intro d m
      have hstep : applyW (w :: ws) d
          = applyW ws (fun mm => if mm = w.1 then some w.2 else d mm) := rfl
      rw [hstep, ih]
      cases hv : lastVal ws m with
      | some v => simp [lastVal, hv]
      | none =>
          simp only [lastVal, hv]
          by_cases hm : m = w.1
          · simp [hm]
          · simp [hm]

/-- Applying the same writes twice is the same as applying them once. -/
theorem applyW_twice (ws : List (String × DTable)) (d : DestDB) :
    applyW ws (applyW ws d) = applyW ws d := by
  funext m
  simp only [applyW_spec]
  cases hv : lastVal ws m <;> simp

/-- The table a trace event concerns, if any. -/
def eventName : Event → Option String
  | Event.reflect => none
  | Event.fixturesInstalled => none
  | Event.dropT n => some n
  | Event.createT n => some n
  | Event.insertR n => some n

/-- Claim C4: a run reflects the source exactly once, and its trace is the
reflection event followed by one contiguous block per table — materialize
(drop, create) then every row insert — with the blocks laid out in the
reverse of the foreign-key topological order produced by introspection, so
no two tables' work interleaves; every event of a table's block concerns
that table's derived destination table only. -/
theorem copy_db_trace_spec (db : SrcDB) (d : DestDB) :
    (copy_db db d).2
      = Event.reflect ::
        (((db.sortedTables.map reflect_table).reverse).map
          (fun t => copy_table_events t (db.rowsOf t.name))).flatten ∧
    ((copy_db db d).2).count Event.reflect = 1 ∧
    (∀ t srcRows e, e ∈ copy_table_events t srcRows →
      eventName e = some ( TABLE_PREFIX ++ t.name)) := by
  have h1 : (copy_db db d).2
      = Event.reflect ::
        (((db.sortedTables.map reflect_table).reverse).map
          (fun t => copy_table_events t (db.rowsOf t.name))).flatten := by
    rw [copy_db, foldl_copy_step_snd]
    rfl
  refine ⟨h1, ?_, ?_⟩
  · rw [h1]
    have hnot : Event.reflect ∉
        (((db.sortedTables.map reflect_table).reverse).map
          (fun t => copy_table_events t (db.rowsOf t.name))).flatten := by
      intro hmem
      rcases List.mem_flatten.mp hmem with ⟨l, hl, hel⟩
      rcases List.mem_map.mp hl with ⟨t, _, rfl⟩
      simp [copy_table_events] at hel
    rw [List.count_cons_self, List.count_eq_zero.mpr hnot]
  · intro t srcRows e he
    simp only [copy_table_events, List.mem_cons, List.mem_map] at he
    rcases he with rfl | rfl | ⟨r, _, rfl⟩ <;> rfl

/-- Witness for C4 at a concrete event: the create event of the `users`
table's block concerns the derived table `dbin_users`. -/
theorem copy_db_trace_spec_witness :
    eventName (Event.createT ("dbin_" ++ "users")) = some ( TABLE_PREFIX ++ "users") :=
  (copy_db_trace_spec { sortedTables := [], rowsOf := fun _ => [] } destEmpty).2.2
    usersTable [] (Event.createT ("dbin_" ++ "users")) (by decide)

/-- Claim C5: running the whole pipeline twice against the same source and
destination yields the same destination content as running it once — the
drop-before-create makes re-runs safe and no duplicate rows accumulate. -/
theorem copy_db_idempotent (db : SrcDB) (d : DestDB) :
    (copy_db db ((copy_db db d).1)).1 = (copy_db db d).1 := by
  have hchar : ∀ d0 : DestDB, (copy_db db d0).1
      = applyW (((db.sortedTables.map reflect_table).reverse).map (table_write db)) d0 :=
    fun d0 => foldl_copy_step_fst db _ d0 _
  rw [hchar, hchar]
  exact applyW_twice _ _

/-- Errors that can escape the run: a Python `TypeError` (bad call
arguments) or a database error (connectivity, rejected DDL). -/
inductive RunErr where
  | typeError : RunErr
  | dbError (what : String) : RunErr
  deriving DecidableEq

/-- Python keyword-argument binding: a call succeeds only when every
keyword used at the call site names a parameter of the callee; otherwise
the interpreter raises `TypeError` before the body runs. -/
def check_kwargs (params kwargs : List String) : Except RunErr Unit :=
  if kwargs.all (fun k => params.contains k) then Except.ok ()
  else Except.error RunErr.typeError

/-- The parameter list of `setup_fixtures(in_engine: Engine)`. -/
def setup_fixtures_params : List String := ["in_engine"]

/-- The keywords `main` uses at its call site
`setup_fixtures(in_db_url=in_db_url)`. -/
def setup_fixtures_call_kwargs : List String := ["in_db_url"]

/-- The world a run talks to: the source database behind `DB_IN` (`none`
when it cannot be reached, making reflection fail), whether the
destination behind `DB_OUT` is reachable, and which column types the
destination engine's DDL accepts. -/
structure World where
  src : Option SrcDB
  destReachable : Bool
  accepts : SQLType → Bool

/-- The per-table loop of `copy_db` with failure: the first destination
operation fails when the destination is unreachable; `create` fails when
the destination engine rejects a column type (the genericizer's fallback
can leave such a type in place); an error aborts the loop at once — there
is no continue-on-error mode — and work already done stays in place. -/
def copy_tables_e (dr : Bool) (acc : SQLType → Bool) (db : SrcDB) :
    List Table → DestDB → List Event → Except RunErr Unit × DestDB × List Event
  | [], d, evs => (Except.ok (), d, evs)
  | t :: ts, d, evs =>
      if dr then
        let out := derive_out_table t
        if out.columns.all (fun c => acc c.type) then
          let r := copy_table t (db.rowsOf t.name) d
          copy_tables_e dr acc db ts r.1 (evs ++ r.2.1)
        else
          (Except.error (RunErr.dbError out.name), drop_table d out.name,
           evs ++ [Event.dropT out.name])
      else (Except.error (RunErr.dbError "destination"), d, evs)

/-- `copy_db` against a fallible world: reflection aborts the whole run if
the source cannot be reached; otherwise the tables are processed in
reverse sorted order until the first error. -/
def copy_db_e (w : World) (d : DestDB) :
    Except RunErr Unit × DestDB × List Event :=
  match w.src with
  | none => (Except.error (RunErr.dbError "source"), d, [])
  | some db =>
      copy_tables_e w.destReachable w.accepts db
        ((db.sortedTables.map reflect_table).reverse) d [Event.reflect]

/-- `main` from `copy_db_poc.py`: when `should_install_fixtures` is set it
calls `setup_fixtures(in_db_url=in_db_url)` — a call whose keyword binding
fails — then runs `copy_db` and returns `0`.  `main` catches nothing, so
any error propagates to the interpreter. -/
def main_e (should_install_fixtures : Bool) (w : World) (d : DestDB) :
    Except RunErr Nat × DestDB × List Event :=
  if should_install_fixtures then
    match check_kwargs setup_fixtures_params setup_fixtures_call_kwargs with
    | Except.error e => (Except.error e, d, [])
    | Except.ok _ =>
        -- unreachable at this call site: the binding above always fails;
        -- on success the fixture body would run, then the copy
        let r := copy_db_e w d
        (match r.1 with
         | Except.ok _ => Except.ok 0
         | Except.error e => Except.error e,
         r.2.1, Event.fixturesInstalled :: r.2.2)
  else
    let r := copy_db_e w d
    (match r.1 with
     | Except.ok _ => Except.ok 0
     | Except.error e => Except.error e,
     r.2)

/-- `sys.exit(main(...))` with CPython's behaviour for uncaught
exceptions: a normal return gives its value as the exit status, an
uncaught exception makes the interpreter exit with status 1. -/
def exit_code (r : Except RunErr Nat) : Nat :=
  match r with
  | Except.ok n => n
  | Except.error _ => 1

/-- `main` either returns `0` or lets an error escape. -/
theorem main_e_cases (fx : Bool) (w : World) (d : DestDB) :
    (main_e fx w d).1 = Except.ok 0 ∨ ∃ e, (main_e fx w d).1 = Except.error e := by
  cases fx with
  | true =>
      right
      exact ⟨RunErr.typeError, rfl⟩
  | false =>
      have hm : (main_e false w d).1
          = (match (copy_db_e w d).1 with
             | Except.ok _ => Except.ok 0
             | Except.error e => Except.error e) := rfl
      rw [hm]
      cases hr : (copy_db_e w d).1 with
      | ok u =>
          left
          rfl
      | error e =>
          right
          exact ⟨e, rfl⟩

/-- Claim C10: with the install-fixtures flag set, the entry point raises
`TypeError` at the `setup_fixtures(in_db_url=...)` call — whose keyword
does not match the parameter `in_engine` — before any table is
materialized or copied: whatever the source and destination are, the
result is the `TypeError`, the destination is untouched, and the trace is
empty (in particular no fixtures are installed). -/
theorem main_fixtures_type_error (w : World) (d : DestDB) :
    main_e true w d = (Except.error RunErr.typeError, d, ([] : List Event)) := rfl

/-- A world whose single source table has a column the destination engine
rejects (its `TSVECTOR` survives genericization unchanged). -/
def wTableFail : World :=
  { src := some { sortedTables := [tsvTable], rowsOf := fun _ => [] }
    destReachable := true
    accepts := fun ty => match ty with
      | SQLType.pgTSVECTOR => false
      | _ => true }

/-- A world whose source cannot be reached at all. -/
def wNoSource : World :=
  { src := none, destReachable := true, accepts := fun _ => true }

/-- A world in which everything succeeds (no tables). -/
def wAllGood : World :=
  { src := some { sortedTables := [], rowsOf := fun _ => [] }
    destReachable := true
    accepts := fun _ => true }

/-- Counterexample to claim C9: a run stopped by a per-table failure (DDL
rejected on `dbin_docs`, after reflection succeeded) and a run aborted
before any table work (unreachable source) are different outcomes — their
traces differ — yet both exit with status 1, so the exit status does not
distinguish three outcomes; only full success is distinguished, by 0. -/
theorem exit_code_two_outcomes_cex :
    exit_code (main_e false wTableFail destEmpty).1 = 1 ∧
    exit_code (main_e false wNoSource destEmpty).1 = 1 ∧
    (main_e false wTableFail destEmpty).2.2 ≠ (main_e false wNoSource destEmpty).2.2 ∧
    (main_e false wAllGood destEmpty).1 = Except.ok 0 := by
  refine ⟨rfl, rfl, by decide, rfl⟩

/-- Claim C9 (amended): the process exit status distinguishes exactly two
outcomes — it is 0 precisely when the run completed successfully, and 1
whenever any error escaped (a run stopped at a failing table counts as
aborted; there is no continue-on-error mode) — so in particular the entry
point never yields the success status when the run did not complete. -/
theorem exit_code_spec (fx : Bool) (w : World) (d : DestDB) :
    (exit_code (main_e fx w d).1 = 0 ↔ (main_e fx w d).1 = Except.ok 0) ∧
    (∀ e, (main_e fx w d).1 = Except.error e → exit_code (main_e fx w d).1 = 1) ∧
    ((main_e fx w d).1 = Except.ok 0 → fx = false) := by
  refine ⟨⟨?_, ?_⟩, ?_, ?_⟩
  · intro h0
    rcases main_e_cases fx w d with hok | ⟨e, he⟩
    · exact hok
    · rw [he] at h0
      simp [exit_code] at h0
  · intro hok
    rw [hok]
    rfl
  · intro e he
    rw [he]
    rfl
  · intro hok
    cases fx with
    | true =>
        have : (main_e true w d).1 = Except.error RunErr.typeError := rfl
        rw [this] at hok
        cases hok
    | false => rfl

/-- Witness for the amended C9 at concrete inputs: the aborted run exits
with 1, the successful run with 0. -/
theorem exit_code_spec_witness :
    exit_code (main_e false wNoSource destEmpty).1 = 1 ∧
    exit_code (main_e false wAllGood destEmpty).1 = 0 := by
  constructor
  · exact (exit_code_spec false wNoSource destEmpty).2.1 (RunErr.dbError "source") rfl
  · exact (exit_code_spec false wAllGood destEmpty).1.mpr rfl

end CopyDbPoc
